import Mathlib

/-!
Shallow embedding of the core of the cleopatra_cairo virtual machine, covering
the segment manager and trace relocation (`memory_segments.rs`,
`trace_entry.rs`), the instruction decoder (`decoder.rs`) and the hint
reference-resolution and hint bodies of `hint_utils.rs`.

Machine integers (`usize`, `i64`, `i32`, `BigInt`) are embedded as `Nat`/`Int`;
every arithmetic step of the source in the ranges exercised by the claims is
value-preserving under this embedding. Fallible Rust functions returning
`Result` become `Except`; the one reachable `assert!` abort in the decoder is
embedded as an `Option` layer (`none` = abort). Structures whose defining
files are not part of the provided sources (`Memory`, `Relocatable`,
`ApTracking`, `HintReference`, `RunContext`, the range-check builtin and the
`math_utils` helpers) are modelled from the specification; each such
definition carries a doc comment saying so.
-/

set_option maxRecDepth 4096

/-- Relocatable address. Modelled from the spec: `relocatable.rs` is not under
the provided sources. Spec §3: a pair of a non-negative segment index and a
non-negative offset; we embed both as `Int` (the non-negativity shows up as a
hypothesis where it matters). -/
structure Relocatable where
  segment_index : Int
  offset : Int
  deriving DecidableEq, Repr

/-- Memory value. Modelled from the spec: `relocatable.rs` is not under the
provided sources. Spec §3: a tagged union of a field integer and a
relocatable address. -/
inductive MaybeRelocatable where
  | Int (i : ℤ)
  | RelocatableValue (r : Relocatable)
  deriving DecidableEq, Repr

/-- Memory errors, as named by the in-source uses (`memory_segments.rs` uses
`EffectiveSizesNotCalled`); the other constructors are modelled from the
spec's memory error kinds (§7), since `memory_errors.rs` is not under the
provided sources. -/
inductive MemoryError where
  | EffectiveSizesNotCalled
  | InconsistentMemory
  | AddressNotRelocatable
  | UnallocatedSegment
  deriving DecidableEq, Repr

/-- Trace errors, from `trace_errors.rs` as used by `trace_entry.rs`. -/
inductive TraceError where
  | NoRelocationFound
  deriving DecidableEq, Repr

/-- One segment of memory: a cell-indexed list, `none` marking an unset cell.
Modelled from the spec: `memory.rs` is not under the provided sources. The
spec (§3) requires the per-segment used size to be `1 + max written offset`,
which is the length of this padded list. -/
abbrev MemSegment : Type := List (Option MaybeRelocatable)

deriving instance DecidableEq for Except

/-- Segmented memory. Modelled from the spec: `memory.rs` is not under the
provided sources (spec §3 and §4.2: sparse write-once segments, reads of
absent cells return "missing"; validator rules are omitted, no claim
concerns them). -/
structure Memory where
  data : List MemSegment
  deriving DecidableEq

/-- Reads a cell. Modelled from the spec (§4.2): `get` requires an `Addr` and
returns missing (`none`) when the cell is unset; a negative or out-of-range
address holds no cell. -/
def Memory.get (mem : Memory) (addr : MaybeRelocatable) :
    Except MemoryError (Option MaybeRelocatable) :=
  match addr with
  | .Int _ => .error .AddressNotRelocatable
  | .RelocatableValue r =>
      if 0 ≤ r.segment_index ∧ 0 ≤ r.offset then
        .ok ((mem.data.getD r.segment_index.toNat []).getD r.offset.toNat none)
      else
        .ok none

/-- Pads a segment with unset cells up to length `n`. -/
def padSegment (seg : MemSegment) (n : Nat) : MemSegment :=
  seg ++ List.replicate (n - seg.length) none

/-- Writes a cell. Modelled from the spec (§4.2): write-once; inserting a
different value over a set cell fails with `InconsistentMemory`, re-inserting
the same value is a no-op. The target segment must exist. -/
def Memory.insert (mem : Memory) (addr value : MaybeRelocatable) :
    Except MemoryError Memory :=
  match addr with
  | .Int _ => .error .AddressNotRelocatable
  | .RelocatableValue r =>
      if 0 ≤ r.segment_index ∧ 0 ≤ r.offset ∧ r.segment_index.toNat < mem.data.length then
        let seg := mem.data.getD r.segment_index.toNat []
        match seg.getD r.offset.toNat none with
        | some old => if old = value then .ok mem else .error .InconsistentMemory
        | none =>
            .ok ⟨mem.data.set r.segment_index.toNat
                  ((padSegment seg (r.offset.toNat + 1)).set r.offset.toNat (some value))⟩
      else .error .UnallocatedSegment

/-- From `memory_segments.rs`: the segment manager state. -/
structure MemorySegmentManager where
  num_segments : Nat
  segment_used_sizes : Option (List Nat)
  deriving DecidableEq, Repr

namespace MemorySegmentManager

/-- From `memory_segments.rs`: `MemorySegmentManager::new`. -/
def new : MemorySegmentManager := ⟨0, none⟩

/-- From `memory_segments.rs`: `add` records the current `num_segments` as the
new segment's index, increments `num_segments`, pushes an empty segment onto
the memory data and returns the base `(segment_index, 0)`. The `_size`
argument is always `None` in this version and is dropped. -/
def add (self : MemorySegmentManager) (memory : Memory) :
    Relocatable × MemorySegmentManager × Memory :=
  let segment_index := self.num_segments
  (⟨(segment_index : Int), 0⟩,
   { self with num_segments := self.num_segments + 1 },
   ⟨memory.data ++ [([] : MemSegment)]⟩)

/-- From `memory_segments.rs`: `compute_effective_sizes` is a no-op when the
sizes were already computed, else records each segment's length. -/
def compute_effective_sizes (self : MemorySegmentManager) (memory : Memory) :
    MemorySegmentManager :=
  if self.segment_used_sizes ≠ none then self
  else { self with segment_used_sizes := some (memory.data.map List.length) }

/-- The loop of `relocate_segments`: starting from the table `[first_addr]`,
each iteration pushes `relocation_table[i] + size` where at iteration `i` the
entry `relocation_table[i]` is the last entry built so far. We build the same
full table (final total included) by carrying that running last entry. -/
def buildRelocationTable (last : Nat) : List Nat → List Nat
  | [] => [last]
  | s :: rest => last :: buildRelocationTable (last + s) rest

/-- From `memory_segments.rs`: `relocate_segments` fails when the effective
sizes were never computed, else builds the table with base 1 and pops the
final total. -/
def relocate_segments (self : MemorySegmentManager) :
    Except MemoryError (List Nat) :=
  match self.segment_used_sizes with
  | none => .error .EffectiveSizesNotCalled
  | some segment_used_sizes => .ok (buildRelocationTable 1 segment_used_sizes).dropLast

end MemorySegmentManager

/-- From `trace_entry.rs`: `relocate_trace_register` maps a relocatable through
the relocation table, failing when the table has no entry for its segment. -/
def relocate_trace_register (value : Relocatable) (relocation_table : List Nat) :
    Except TraceError Int :=
  if (relocation_table.length : Int) ≤ value.segment_index then
    .error .NoRelocationFound
  else
    .ok ((relocation_table.getD value.segment_index.toNat 0 : Int) + value.offset)

example :
    MemorySegmentManager.relocate_segments ⟨5, some [3, 3, 56, 78, 8]⟩ =
      .ok [1, 4, 7, 63, 141] := by decide

example : relocate_trace_register ⟨2, 7⟩ [1, 2, 5] = .ok 12 := by decide

example : relocate_trace_register ⟨2, 7⟩ [1, 2] = .error .NoRelocationFound := by decide

/-- From `instruction.rs`: operand registers. -/
inductive Register where
  | AP
  | FP
  deriving DecidableEq, Repr

/-- From `instruction.rs`: sources for operand 1. -/
inductive Op1Addr where
  | Imm
  | AP
  | FP
  | Op0
  deriving DecidableEq, Repr

/-- From `instruction.rs`: result logic. -/
inductive Res where
  | Op1
  | Add
  | Mul
  | Unconstrained
  deriving DecidableEq, Repr

/-- From `instruction.rs`: PC update modes. -/
inductive PcUpdate where
  | Regular
  | Jump
  | JumpRel
  | Jnz
  deriving DecidableEq, Repr

/-- From `instruction.rs`: AP update modes. -/
inductive ApUpdate where
  | Regular
  | Add
  | Add1
  | Add2
  deriving DecidableEq, Repr

/-- From `instruction.rs`: FP update modes. -/
inductive FpUpdate where
  | Regular
  | APPlus2
  | Dst
  deriving DecidableEq, Repr

/-- From `instruction.rs`: opcodes. -/
inductive Opcode where
  | NOp
  | AssertEq
  | Call
  | Ret
  deriving DecidableEq, Repr

/-- From `instruction.rs`: the decoded instruction. -/
structure Instruction where
  off0 : Int
  off1 : Int
  off2 : Int
  imm : Option Int
  dst_register : Register
  op0_register : Register
  op1_addr : Op1Addr
  res : Res
  pc_update : PcUpdate
  ap_update : ApUpdate
  fp_update : FpUpdate
  opcode : Opcode
  deriving DecidableEq, Repr

/-- From `vm_errors.rs` as used by the sources under inspection; payloads follow
the source's uses. The source names the invalid-`op1_src` error
`InvalidOp1Reg`. -/
inductive VirtualMachineError where
  | InvalidOp1Reg (n : Int)
  | InvalidPcUpdate (n : Int)
  | InvalidRes (n : Int)
  | InvalidOpcode (n : Int)
  | InvalidApUpdate (n : Int)
  | NoneApTrackingData
  | InvalidTrackingGroup (refGroup hintGroup : Int)
  | InvalidApValue (v : MaybeRelocatable)
  | IncorrectIds (expected got : List String)
  | FailedToGetIds
  | FailedToGetReference (id : Int)
  | ExpectedInteger (v : MaybeRelocatable)
  | MemoryGet (v : MaybeRelocatable)
  | MemoryError (e : MemoryError)
  | NoRangeCheckBuiltin
  | NonLeFelt (a b : Int)
  | OutOfValidRange (a b : Int)
  | ValueOutside250BitRange (v : Int)
  deriving DecidableEq, Repr

/-- Embeds the contiguous-mask field extraction `(x & mask) >> off` of the
decoder, where `mask` covers bits `off .. off+w-1`: on two's-complement `i64`
values this equals `(x >> off) mod 2^w` with an arithmetic (floor) shift. -/
def maskShift (x : Int) (off w : Nat) : Int :=
  (Int.fdiv x (2 ^ off)).emod (2 ^ w)

/-- From `decoder.rs`: `decode_offset` reads the low 16 bits as a `u16`, wraps
a subtraction of `0x8000` and sign-extends the result as an `i16`. -/
def decode_offset (offset : Int) : Int :=
  let offset_16b_encoded := offset.emod 65536
  let sub := (offset_16b_encoded - 32768).emod 65536
  if sub < 32768 then sub else sub - 65536

/-- From `decoder.rs`: the flags word sits at bits 48..63 (arithmetic shift). -/
def flagsOf (encoded_instr : Int) : Int :=
  Int.fdiv encoded_instr (2 ^ 48)

/-- From `decoder.rs`: `dst_reg_num = (flags & 0x0001) >> 0`. -/
def dst_reg_num (encoded_instr : Int) : Int := maskShift (flagsOf encoded_instr) 0 1

/-- From `decoder.rs`: `op0_reg_num = (flags & 0x0002) >> 1`. -/
def op0_reg_num (encoded_instr : Int) : Int := maskShift (flagsOf encoded_instr) 1 1

/-- From `decoder.rs`: `op1_src_num = (flags & 0x001C) >> 2`. -/
def op1_src_num (encoded_instr : Int) : Int := maskShift (flagsOf encoded_instr) 2 3

/-- From `decoder.rs`: `res_logic_num = (flags & 0x0060) >> 5`. -/
def res_logic_num (encoded_instr : Int) : Int := maskShift (flagsOf encoded_instr) 5 2

/-- From `decoder.rs`: `pc_update_num = (flags & 0x0380) >> 7`. -/
def pc_update_num (encoded_instr : Int) : Int := maskShift (flagsOf encoded_instr) 7 3

/-- From `decoder.rs`: `ap_update_num = (flags & 0x0C00) >> 10`. -/
def ap_update_num (encoded_instr : Int) : Int := maskShift (flagsOf encoded_instr) 10 2

/-- From `decoder.rs`: `opcode_num = (flags & 0x7000) >> 12`. -/
def opcode_num (encoded_instr : Int) : Int := maskShift (flagsOf encoded_instr) 12 3

/-- From `decoder.rs`: the `op1_src_num` match arms. -/
def decodeOp1Addr (n : Int) : Except VirtualMachineError Op1Addr :=
  if n = 0 then .ok .Op0
  else if n = 1 then .ok .Imm
  else if n = 2 then .ok .FP
  else if n = 4 then .ok .AP
  else .error (.InvalidOp1Reg n)

/-- From `decoder.rs`: the `pc_update_num` match arms. -/
def decodePcUpdate (n : Int) : Except VirtualMachineError PcUpdate :=
  if n = 0 then .ok .Regular
  else if n = 1 then .ok .Jump
  else if n = 2 then .ok .JumpRel
  else if n = 4 then .ok .Jnz
  else .error (.InvalidPcUpdate n)

/-- From `decoder.rs`: the `res_logic_num` match arms, whose first arm is
guarded on `pc_update` being `Jnz`. -/
def decodeRes (n : Int) (pc_update : PcUpdate) : Except VirtualMachineError Res :=
  if n = 0 then
    .ok (if pc_update = .Jnz then .Unconstrained else .Op1)
  else if n = 1 then .ok .Add
  else if n = 2 then .ok .Mul
  else .error (.InvalidRes n)

/-- From `decoder.rs`: the `opcode_num` match arms. -/
def decodeOpcode (n : Int) : Except VirtualMachineError Opcode :=
  if n = 0 then .ok .NOp
  else if n = 1 then .ok .Call
  else if n = 2 then .ok .Ret
  else if n = 4 then .ok .AssertEq
  else .error (.InvalidOpcode n)

/-- From `decoder.rs`: the `ap_update_num` match arms, whose first arm is
guarded on `opcode` being `Call`. -/
def decodeApUpdate (n : Int) (opcode : Opcode) : Except VirtualMachineError ApUpdate :=
  if n = 0 then
    .ok (if opcode = .Call then .Add2 else .Regular)
  else if n = 1 then .ok .Add
  else if n = 2 then .ok .Add1
  else .error (.InvalidApUpdate n)

/-- From `decoder.rs`: the `fp_update` match on the opcode. -/
def fpUpdateOf (opcode : Opcode) : FpUpdate :=
  match opcode with
  | .Call => .APPlus2
  | .Ret => .Dst
  | _ => .Regular

/-- From `decoder.rs`: `decode_instruction`. The outer `Option` embeds the
`assert!` abort raised when `op1_src` selects an immediate and none was
given (`none` = abort); otherwise the field checks run in source order and
the first failing one reports its error. -/
def decode_instruction (encoded_instr : Int) (imm0 : Option Int) :
    Option (Except VirtualMachineError Instruction) :=
  let off0 := decode_offset (maskShift encoded_instr 0 16)
  let off1 := decode_offset (maskShift encoded_instr 16 16)
  let off2 := decode_offset (maskShift encoded_instr 32 16)
  let dst_register := if dst_reg_num encoded_instr = 1 then Register.FP else Register.AP
  let op0_register := if op0_reg_num encoded_instr = 1 then Register.FP else Register.AP
  match decodeOp1Addr (op1_src_num encoded_instr) with
  | .error e => some (.error e)
  | .ok op1_addr =>
    if op1_addr = Op1Addr.Imm ∧ imm0 = none then none
    else
      let imm := if op1_addr = Op1Addr.Imm then imm0 else none
      match decodePcUpdate (pc_update_num encoded_instr) with
      | .error e => some (.error e)
      | .ok pc_update =>
        match decodeRes (res_logic_num encoded_instr) pc_update with
        | .error e => some (.error e)
        | .ok res =>
          match decodeOpcode (opcode_num encoded_instr) with
          | .error e => some (.error e)
          | .ok opcode =>
            match decodeApUpdate (ap_update_num encoded_instr) opcode with
            | .error e => some (.error e)
            | .ok ap_update =>
              some (.ok
                { off0 := off0, off1 := off1, off2 := off2, imm := imm,
                  dst_register := dst_register, op0_register := op0_register,
                  op1_addr := op1_addr, res := res, pc_update := pc_update,
                  ap_update := ap_update, fp_update := fpUpdateOf opcode,
                  opcode := opcode })

example :
    decode_instruction 0x294F800080008000 none =
      some (.error (.InvalidOp1Reg 3)) := by decide

example :
    decode_instruction 0x29A8800080008000 none =
      some (.error (.InvalidPcUpdate 3)) := by decide

example :
    decode_instruction 0x2968800080008000 none =
      some (.error (.InvalidRes 3)) := by decide

example :
    decode_instruction 0x3948800080008000 none =
      some (.error (.InvalidOpcode 3)) := by decide

example :
    decode_instruction 0x2D48800080008000 none =
      some (.error (.InvalidApUpdate 3)) := by decide

example :
    decode_instruction 0x14A7800080008000 (some 7) =
      some (.ok
        { off0 := 0, off1 := 0, off2 := 0, imm := some 7,
          dst_register := .FP, op0_register := .FP, op1_addr := .Imm,
          res := .Add, pc_update := .Jump, ap_update := .Add,
          fp_update := .APPlus2, opcode := .Call }) := by decide

/-- AP tracking metadata. Modelled from the spec: `deserialize_program.rs` is
not under the provided sources. Spec §3: `{ group: int, offset: int }`. -/
structure ApTracking where
  group : Int
  offset : Int
  deriving DecidableEq, Repr

/-- Symbolic hint reference. Modelled from the spec: `execute_hint.rs` is not
under the provided sources. Spec §3: `{ register, offset1, offset2,
inner_dereference, ap_tracking_data? }`. -/
structure HintReference where
  register : Register
  offset1 : Int
  offset2 : Int
  inner_dereference : Bool
  ap_tracking_data : Option ApTracking
  deriving DecidableEq, Repr

/-- Register triple. Modelled from the spec: `run_context.rs` is not under the
provided sources. Spec §3: `{ pc, ap, fp : MaybeRelocatable }`. -/
structure RunContext where
  pc : MaybeRelocatable
  ap : MaybeRelocatable
  fp : MaybeRelocatable
  deriving DecidableEq, Repr

/-- Range-check builtin runner. Modelled from the spec: `builtin_runner.rs` is
not under the provided sources; only its `_bound` field is consumed by the
hints under inspection. -/
structure RangeCheckBuiltinRunner where
  _bound : Int
  deriving DecidableEq, Repr

/-- A registered builtin runner, as seen through the dynamic downcast the
hints perform: either the range-check runner or some other builtin. Modelled
from the spec: `builtin_runner.rs` is not under the provided sources. -/
inductive BuiltinRunner where
  | RangeCheck (runner : RangeCheckBuiltinRunner)
  | Other (name : String)
  deriving DecidableEq, Repr

/-- The VM state threaded through the hints: exactly the fields of
`VirtualMachine` that `hint_utils.rs` touches. -/
structure VirtualMachine where
  run_context : RunContext
  prime : Int
  builtin_runners : List (String × BuiltinRunner)
  references : List HintReference
  memory : Memory
  segments : MemorySegmentManager
  deriving DecidableEq

/-- From `hint_utils.rs`: `apply_ap_tracking_correction` rejects differing
tracking groups and otherwise lowers the AP offset by the tracking
difference `hint.offset - ref.offset`. -/
def apply_ap_tracking_correction (ap : Relocatable)
    (ref_ap_tracking hint_ap_tracking : ApTracking) :
    Except VirtualMachineError MaybeRelocatable :=
  if ref_ap_tracking.group ≠ hint_ap_tracking.group then
    .error (.InvalidTrackingGroup ref_ap_tracking.group hint_ap_tracking.group)
  else
    let ap_diff := hint_ap_tracking.offset - ref_ap_tracking.offset
    .ok (.RelocatableValue ⟨ap.segment_index, ap.offset - ap_diff⟩)

/-- From `hint_utils.rs`: the `base_addr` computation opening
`compute_addr_from_reference`: FP references use `fp` directly; AP references
demand both tracking records, an address-valued `ap`, and apply the tracking
correction. -/
def hintBaseAddr (hint_reference : HintReference) (run_context : RunContext)
    (hint_ap_tracking : Option ApTracking) :
    Except VirtualMachineError MaybeRelocatable :=
  match hint_reference.register with
  | .FP => .ok run_context.fp
  | .AP =>
    match hint_ap_tracking, hint_reference.ap_tracking_data with
    | some hat, some rat =>
        match run_context.ap with
        | .RelocatableValue relocatable => apply_ap_tracking_correction relocatable rat hat
        | _ => .error (.InvalidApValue run_context.ap)
    | _, _ => .error .NoneApTrackingData

/-- The `as i32` cast of the source's address arithmetic: reinterpret the low
32 bits of the value in two's complement, so a `usize` offset is truncated and
an out-of-range sum wraps (the `i32` additions of `hint_utils.rs` are likewise
embedded with this wraparound). -/
def as_i32 (x : Int) : Int :=
  (x + 2 ^ 31).emod (2 ^ 32) - 2 ^ 31

/-- The `as usize` cast applied to an `i32` value in the source's address
arithmetic: a negative value wraps to `2^64 + x`. -/
def as_usize (x : Int) : Int :=
  x.emod (2 ^ 64)

/-- From `hint_utils.rs`: `compute_addr_from_reference`. A base whose offset is
too small for a negative `offset1` resolves to no address; a direct reference
computes `(base.offset as i32 + offset1 + offset2) as usize`; an inner
dereference reads the cell at `(base.offset as i32 + offset1) as usize`,
requires it to hold an address, and shifts that address's offset by
`(mid.offset as i32 + offset2) as usize`. Each `as i32` / `as usize` cast of
the source (lines 77, 83 and 90) is embedded by `as_i32` / `as_usize`. -/
def compute_addr_from_reference (hint_reference : HintReference)
    (run_context : RunContext) (memory : Memory)
    (hint_ap_tracking : Option ApTracking) :
    Except VirtualMachineError (Option MaybeRelocatable) :=
  match hintBaseAddr hint_reference run_context hint_ap_tracking with
  | .error e => .error e
  | .ok base_addr =>
    match base_addr with
    | .RelocatableValue relocatable =>
      if hint_reference.offset1 < 0 ∧ relocatable.offset < |hint_reference.offset1| then
        .ok none
      else if ¬ hint_reference.inner_dereference then
        .ok (some (.RelocatableValue
          ⟨relocatable.segment_index,
            as_usize (as_i32 (as_i32 (as_i32 relocatable.offset + hint_reference.offset1) +
              hint_reference.offset2))⟩))
      else
        let addr := MaybeRelocatable.RelocatableValue
          ⟨relocatable.segment_index,
            as_usize (as_i32 (as_i32 relocatable.offset + hint_reference.offset1))⟩
        match memory.get addr with
        | .ok (some (.RelocatableValue dereferenced_addr)) =>
            .ok (some (.RelocatableValue
              ⟨dereferenced_addr.segment_index,
                as_usize (as_i32 (as_i32 dereferenced_addr.offset +
                  hint_reference.offset2))⟩))
        | _ => .ok none
    | _ => .ok none

/-- From `hint_utils.rs`: `get_address_from_reference` resolves a reference id
to its reference record (ids outside the table resolve to no address) and
then computes its address. The references table, a `HashMap` keyed by the
dense indices `0..len`, is embedded as a list indexed by position. -/
def get_address_from_reference (reference_id : Int)
    (references : List HintReference) (run_context : RunContext)
    (memory : Memory) (hint_ap_tracking : Option ApTracking) :
    Except VirtualMachineError (Option MaybeRelocatable) :=
  if 0 ≤ reference_id then
    match references.get? reference_id.toNat with
    | some hint_reference =>
        compute_addr_from_reference hint_reference run_context memory hint_ap_tracking
    | none => .ok none
  else .ok none

/-- Modelled from the spec: `math_utils.rs` is not under the provided sources.
Spec §3: the signed view `as_int(x) = x if x < P/2 else x - P`. -/
def as_int (value prime : Int) : Int :=
  if value < Int.fdiv prime 2 then value else value - prime

/-- Modelled from the spec: `math_utils.rs` is not under the provided sources.
Spec §4.7: the integer square root (the source propagates a `Result` that
never fails on the non-negative inputs reaching it, so the embedding always
succeeds). -/
def isqrt (n : Int) : Except VirtualMachineError Int :=
  .ok (Int.ofNat (Nat.sqrt n.toNat))

/-- Looks a variable name up in the hint's `ids` map (a `HashMap<String,
BigInt>` in the source, embedded as an association list). -/
def idsGet (ids : List (String × Int)) (key : String) : Option Int :=
  match ids with
  | [] => none
  | (k, v) :: rest => if k = key then some v else idsGet rest key

/-- The builtin-runner scan every range-check hint performs: walk
`vm.builtin_runners` and stop at the first entry named `range_check`. -/
def findRangeCheckEntry : List (String × BuiltinRunner) → Option BuiltinRunner
  | [] => none
  | (name, builtin) :: rest =>
      if name = "range_check" then some builtin else findRangeCheckEntry rest

/-- From `hint_utils.rs`: `assert_le_felt`. Requires the three ids, their
addresses, integer values for `a` and `b`, an unset `small_inputs` cell and
the range-check builtin; rejects `a mod P > b mod P` with `NonLeFelt` and
otherwise writes `small_inputs = 1` exactly when `a < bound` and
`a - b < bound` on the raw stored values. -/
def assert_le_felt (vm : VirtualMachine) (ids : List (String × Int))
    (hint_ap_tracking : Option ApTracking) :
    Except VirtualMachineError VirtualMachine :=
  match idsGet ids "a", idsGet ids "b", idsGet ids "small_inputs" with
  | some a_ref, some b_ref, some small_inputs_ref =>
    match
      get_address_from_reference a_ref vm.references vm.run_context vm.memory hint_ap_tracking,
      get_address_from_reference b_ref vm.references vm.run_context vm.memory hint_ap_tracking,
      get_address_from_reference small_inputs_ref vm.references vm.run_context vm.memory
        hint_ap_tracking with
    | .ok (some a_addr), .ok (some b_addr), .ok (some small_inputs_addr) =>
      match vm.memory.get a_addr, vm.memory.get b_addr, vm.memory.get small_inputs_addr with
      | .ok (some maybe_rel_a), .ok (some maybe_rel_b), .ok none =>
        match maybe_rel_a with
        | .RelocatableValue _ => .error (.ExpectedInteger a_addr)
        | .Int a =>
          match maybe_rel_b with
          | .RelocatableValue _ => .error (.ExpectedInteger b_addr)
          | .Int b =>
            match findRangeCheckEntry vm.builtin_runners with
            | none => .error .NoRangeCheckBuiltin
            | some (.Other _) => .error .NoRangeCheckBuiltin
            | some (.RangeCheck builtin) =>
              if a.emod vm.prime > b.emod vm.prime then
                .error (.NonLeFelt a b)
              else
                let value : Int :=
                  if a < builtin._bound ∧ a - b < builtin._bound then 1 else 0
                match vm.memory.insert small_inputs_addr (.Int value) with
                | .ok mem => .ok { vm with memory := mem }
                | .error memory_error => .error (.MemoryError memory_error)
      | _, _, _ => .error .FailedToGetIds
    | _, _, _ => .error .FailedToGetIds
  | _, _, _ =>
      .error (.IncorrectIds ["a", "b", "small_inputs"] (ids.map Prod.fst))

/-- From `hint_utils.rs`: the `sqrt` hint. Requires the two ids, their
addresses and an integer `value`; rejects a reduced value of 250 bits or
more (the shifted-value positivity test of the source) and otherwise writes
the integer square root of `value mod P` at the `root` address. -/
def sqrt (vm : VirtualMachine) (ids : List (String × Int))
    (hint_ap_tracking : Option ApTracking) :
    Except VirtualMachineError VirtualMachine :=
  match idsGet ids "value", idsGet ids "root" with
  | some value_ref, some root_ref =>
    match
      get_address_from_reference value_ref vm.references vm.run_context vm.memory
        hint_ap_tracking,
      get_address_from_reference root_ref vm.references vm.run_context vm.memory
        hint_ap_tracking with
    | .ok (some value_addr), .ok (some root_addr) =>
      match vm.memory.get value_addr, vm.memory.get root_addr with
      | .ok (some maybe_rel_value), .ok _ =>
        match maybe_rel_value with
        | .RelocatableValue _ => .error (.ExpectedInteger maybe_rel_value)
        | .Int value =>
          let mod_value := value.emod vm.prime
          if 0 < Int.fdiv mod_value (2 ^ 250) then
            .error (.ValueOutside250BitRange mod_value)
          else
            match isqrt mod_value with
            | .error e => .error e
            | .ok root =>
              match vm.memory.insert root_addr (.Int root) with
              | .ok mem => .ok { vm with memory := mem }
              | .error memory_error => .error (.MemoryError memory_error)
      | _, _ => .error .FailedToGetIds
    | _, _ => .error .FailedToGetIds
  | _, _ => .error (.IncorrectIds ["value", "root"] (ids.map Prod.fst))

/-- From `hint_utils.rs`: `signed_div_rem`. Requires the six ids, their
addresses, readable `r`, `biased_q` and `range_check_ptr` cells and integer
`div`, `value` and `bound` values plus the range-check builtin; enforces
`0 < div <= prime / bound_builtin`, `bound <= bound_builtin >> 1` and
`-bound <= q < bound` for the floor division `(q, r)` of the signed view of
`value` by `div`, then writes `r` and `q + bound`. -/
def signed_div_rem (vm : VirtualMachine) (ids : List (String × Int))
    (hint_ap_tracking : Option ApTracking) :
    Except VirtualMachineError VirtualMachine :=
  match idsGet ids "r", idsGet ids "biased_q", idsGet ids "range_check_ptr",
      idsGet ids "div", idsGet ids "value", idsGet ids "bound" with
  | some r_ref, some biased_q_ref, some range_check_ptr_ref, some div_ref,
      some value_ref, some bound_ref =>
    match
      get_address_from_reference r_ref vm.references vm.run_context vm.memory hint_ap_tracking,
      get_address_from_reference biased_q_ref vm.references vm.run_context vm.memory
        hint_ap_tracking,
      get_address_from_reference range_check_ptr_ref vm.references vm.run_context vm.memory
        hint_ap_tracking,
      get_address_from_reference div_ref vm.references vm.run_context vm.memory
        hint_ap_tracking,
      get_address_from_reference value_ref vm.references vm.run_context vm.memory
        hint_ap_tracking,
      get_address_from_reference bound_ref vm.references vm.run_context vm.memory
        hint_ap_tracking with
    | .ok (some r_addr), .ok (some biased_q_addr), .ok (some range_check_ptr_addr),
        .ok (some div_addr), .ok (some value_addr), .ok (some bound_addr) =>
      match vm.memory.get r_addr, vm.memory.get biased_q_addr,
          vm.memory.get range_check_ptr_addr, vm.memory.get div_addr,
          vm.memory.get value_addr, vm.memory.get bound_addr with
      | .ok _, .ok _, .ok _, .ok (some maybe_rel_div), .ok (some maybe_rel_value),
          .ok (some maybe_rel_bound) =>
        match findRangeCheckEntry vm.builtin_runners with
        | none => .error .NoRangeCheckBuiltin
        | some (.Other _) => .error .NoRangeCheckBuiltin
        | some (.RangeCheck builtin) =>
          match maybe_rel_div with
          | .RelocatableValue _ => .error (.ExpectedInteger div_addr)
          | .Int div =>
            if ¬ 0 < div ∨ div > Int.tdiv vm.prime builtin._bound then
              .error (.OutOfValidRange div (Int.tdiv vm.prime builtin._bound))
            else
              match maybe_rel_bound with
              | .RelocatableValue _ => .error (.ExpectedInteger bound_addr)
              | .Int bound =>
                if bound > Int.fdiv builtin._bound 2 then
                  .error (.OutOfValidRange bound (Int.fdiv builtin._bound 2))
                else
                  match maybe_rel_value with
                  | .RelocatableValue _ => .error (.ExpectedInteger value_addr)
                  | .Int value =>
                    let int_value := as_int value vm.prime
                    let q := Int.fdiv int_value div
                    let r := Int.emod int_value div
                    if -bound > q ∨ q ≥ bound then
                      .error (.OutOfValidRange q bound)
                    else
                      match vm.memory.insert r_addr (.Int r) with
                      | .error e => .error (.MemoryError e)
                      | .ok mem1 =>
                        match mem1.insert biased_q_addr (.Int (q + bound)) with
                        | .error e => .error (.MemoryError e)
                        | .ok mem2 => .ok { vm with memory := mem2 }
      | _, _, _, _, _, _ => .error .FailedToGetIds
    | _, _, _, _, _, _ => .error .FailedToGetIds
  | _, _, _, _, _, _ =>
      .error (.IncorrectIds ["r", "biased_q", "range_check_ptr", "div", "value", "bound"]
        (ids.map Prod.fst))

namespace MemorySegmentManager

lemma buildRelocationTable_ne_nil (last : Nat) (sizes : List Nat) :
    buildRelocationTable last sizes ≠ [] := by
  cases sizes <;> simp [buildRelocationTable]

lemma buildRelocationTable_length (last : Nat) (sizes : List Nat) :
    (buildRelocationTable last sizes).length = sizes.length + 1 := by
  induction sizes generalizing last with
  | nil => rfl
  | cons s rest ih => simp [buildRelocationTable, ih]

lemma sum_take_succ_getD (l : List Nat) (i : Nat) (h : i < l.length) :
    (l.take (i + 1)).sum = (l.take i).sum + l.getD i 0 := by
  induction l generalizing i with
  | nil => simp at h
  | cons x xs ih =>
    cases i with
    | zero => simp
    | succ j =>
      have hj : j < xs.length := by simpa using h
      simp [List.take_succ_cons, ih j hj]
      omega

lemma buildRelocationTable_dropLast_getD (sizes : List Nat) (last : Nat) (i : Nat)
    (h : i < sizes.length) :
    ((buildRelocationTable last sizes).dropLast).getD i 0 = last + (sizes.take i).sum := by
  induction sizes generalizing last i with
  | nil => simp at h
  | cons s rest ih =>
    rw [show buildRelocationTable last (s :: rest) =
          last :: buildRelocationTable (last + s) rest from rfl,
        List.dropLast_cons_of_ne_nil (buildRelocationTable_ne_nil _ _)]
    cases i with
    | zero => simp
    | succ j =>
      have hj : j < rest.length := by simpa using h
      rw [List.getD_cons_succ, ih (last + s) j hj, List.take_succ_cons, List.sum_cons]
      omega

end MemorySegmentManager

/-- C1: given per-segment used sizes `[s0, ..., s(n-1)]`, `relocate_segments`
returns a relocation table `T` of length `n` with `T[0] = 1` and
`T[i+1] = T[i] + s[i]`, and fails with `EffectiveSizesNotCalled` when
`compute_effective_sizes` has not yet been called (the used sizes are still
unset); `relocate_trace_register` maps a `Relocatable` `(s, o)` with
`s < length T` to the flat address `T[s] + o`, and fails with
`NoRelocationFound` when `s >= length T`. -/
theorem relocation_spec (m : MemorySegmentManager) (sizes : List Nat)
    (value : Relocatable) (table : List Nat) :
    (m.segment_used_sizes = some sizes →
      ∃ T, m.relocate_segments = .ok T ∧ T.length = sizes.length ∧
        (0 < sizes.length → T.getD 0 0 = 1) ∧
        (∀ i, i + 1 < sizes.length → T.getD (i + 1) 0 = T.getD i 0 + sizes.getD i 0)) ∧
    (m.segment_used_sizes = none →
      m.relocate_segments = .error .EffectiveSizesNotCalled) ∧
    (0 ≤ value.segment_index → value.segment_index < (table.length : Int) →
      relocate_trace_register value table =
        .ok ((table.getD value.segment_index.toNat 0 : Int) + value.offset)) ∧
    ((table.length : Int) ≤ value.segment_index →
      relocate_trace_register value table = .error .NoRelocationFound) := by
  refine ⟨?_, ?_, ?_, ?_⟩
  · intro hsizes
    refine ⟨(MemorySegmentManager.buildRelocationTable 1 sizes).dropLast, ?_, ?_, ?_, ?_⟩
    · simp [MemorySegmentManager.relocate_segments, hsizes]
    · simp [MemorySegmentManager.buildRelocationTable_length]
    · intro hpos
      simpa using MemorySegmentManager.buildRelocationTable_dropLast_getD sizes 1 0 hpos
    · intro i hi
      rw [MemorySegmentManager.buildRelocationTable_dropLast_getD sizes 1 (i + 1) hi,
        MemorySegmentManager.buildRelocationTable_dropLast_getD sizes 1 i (by omega),
        MemorySegmentManager.sum_take_succ_getD sizes i (by omega)]
      omega
  · intro hnone
    simp [MemorySegmentManager.relocate_segments, hnone]
  · intro h0 hlt
    rw [relocate_trace_register, if_neg (by omega)]
  · intro hge
    rw [relocate_trace_register, if_pos hge]

/-- C1 witness: a table for used sizes `[3, 3, 56]` together with a relocated
register and a missing-segment failure, at concrete inputs. -/
theorem relocation_spec_witness :
    (∃ T, MemorySegmentManager.relocate_segments ⟨3, some [3, 3, 56]⟩ = .ok T ∧
      T.length = 3 ∧ T.getD 0 0 = 1 ∧
      T.getD 1 0 = T.getD 0 0 + 3 ∧ T.getD 2 0 = T.getD 1 0 + 3) ∧
    MemorySegmentManager.relocate_segments MemorySegmentManager.new =
      .error .EffectiveSizesNotCalled ∧
    relocate_trace_register ⟨2, 7⟩ [1, 4, 7] = .ok 14 ∧
    relocate_trace_register ⟨3, 7⟩ [1, 4, 7] = .error .NoRelocationFound := by
  have h1 := relocation_spec ⟨3, some [3, 3, 56]⟩ [3, 3, 56] ⟨2, 7⟩ [1, 4, 7]
  have h2 := relocation_spec MemorySegmentManager.new [] ⟨3, 7⟩ [1, 4, 7]
  obtain ⟨T, hT, hlen, h0, hrec⟩ := h1.1 rfl
  refine ⟨⟨T, hT, hlen, h0 (by decide), ?_, ?_⟩, h2.2.1 rfl, ?_, ?_⟩
  · simpa using hrec 0 (by decide)
  · simpa using hrec 1 (by decide)
  · simpa using h1.2.2.1 (by decide) (by decide)
  · simpa using h2.2.2.2 (by decide)

/-- C10: every call to `MemorySegmentManager::add` returns the base
`(num_segments, 0)` taken before the call, increments `num_segments` by one
and appends one empty segment to the memory data; two successive calls
return distinct bases with strictly increasing segment indices and offset
zero. -/
theorem add_spec (m : MemorySegmentManager) (mem : Memory) :
    ((m.add mem).1 = ⟨(m.num_segments : Int), 0⟩) ∧
    ((m.add mem).2.1.num_segments = m.num_segments + 1) ∧
    ((m.add mem).2.2.data = mem.data ++ [[]]) ∧
    ((m.add mem).1.offset = 0 ∧ ((m.add mem).2.1.add (m.add mem).2.2).1.offset = 0) ∧
    ((m.add mem).1.segment_index < ((m.add mem).2.1.add (m.add mem).2.2).1.segment_index) ∧
    ((m.add mem).1 ≠ ((m.add mem).2.1.add (m.add mem).2.2).1) := by
  refine ⟨rfl, rfl, rfl, ⟨rfl, rfl⟩, ?_, ?_⟩
  · show (m.num_segments : Int) < ((m.num_segments + 1 : Nat) : Int)
    exact_mod_cast Nat.lt_succ_self _
  · intro h
    have : (m.num_segments : Int) = ((m.num_segments + 1 : Nat) : Int) :=
      congrArg Relocatable.segment_index h
    omega

/-- C2: decoding the biased 16-bit field `(x + 2^15) mod 2^16` recovers every
`x` in `[-2^15, 2^15 - 1]`, and the instruction word `0x0000800180007FFF`
decodes with `off0 = -1`, `off1 = 0`, `off2 = 1`. -/
theorem decode_offset_roundtrip (x : Int) (h1 : -(2 ^ 15) ≤ x) (h2 : x ≤ 2 ^ 15 - 1) :
    decode_offset ((x + 2 ^ 15).emod (2 ^ 16)) = x ∧
    ∃ i, decode_instruction 0x0000800180007FFF none = some (.ok i) ∧
      i.off0 = -1 ∧ i.off1 = 0 ∧ i.off2 = 1 := by
  constructor
  · have hm : ∀ a b : Int, a.emod b = a % b := fun _ _ => rfl
    have e16 : (2 : Int) ^ 16 = 65536 := by norm_num
    have e15 : (2 : Int) ^ 15 = 32768 := by norm_num
    simp only [decode_offset, hm, e15, e16]
    split <;> omega
  · have hd : decode_instruction 0x0000800180007FFF none =
        some (.ok ⟨-1, 0, 1, none, .AP, .AP, .Op0, .Op1, .Regular, .Regular, .Regular, .NOp⟩) := by
      decide
    exact ⟨_, hd, rfl, rfl, rfl⟩

/-- C2 witness: the round trip at `x = -1` together with the concrete word. -/
theorem decode_offset_roundtrip_witness :
    decode_offset ((-1 + 2 ^ 15).emod (2 ^ 16)) = -1 ∧
    ∃ i, decode_instruction 0x0000800180007FFF none = some (.ok i) ∧
      i.off0 = -1 ∧ i.off1 = 0 ∧ i.off2 = 1 :=
  decode_offset_roundtrip (-1) (by decide) (by decide)

/-- C3: on any 64-bit instruction word, an unassigned flag encoding is
rejected with an error carrying the offending value, each field being checked
in decode order (`op1_src`, then `pc_update`, `res_logic`, `opcode`,
`ap_update`), with the required immediate present whenever `op1_src` selects
one. The source names the `op1_src` error constructor `InvalidOp1Reg`. -/
theorem decode_invalid_flag_errors (w : Int) (imm : Option Int)
    (hw : -(2 ^ 63) ≤ w ∧ w < 2 ^ 63) :
    (op1_src_num w = 3 →
      decode_instruction w imm = some (.error (.InvalidOp1Reg 3))) ∧
    ((op1_src_num w = 0 ∨ op1_src_num w = 1 ∨ op1_src_num w = 2 ∨ op1_src_num w = 4) →
      (op1_src_num w = 1 → imm ≠ none) →
      pc_update_num w = 3 →
      decode_instruction w imm = some (.error (.InvalidPcUpdate 3))) ∧
    ((op1_src_num w = 0 ∨ op1_src_num w = 1 ∨ op1_src_num w = 2 ∨ op1_src_num w = 4) →
      (op1_src_num w = 1 → imm ≠ none) →
      (pc_update_num w = 0 ∨ pc_update_num w = 1 ∨ pc_update_num w = 2 ∨
        pc_update_num w = 4) →
      res_logic_num w = 3 →
      decode_instruction w imm = some (.error (.InvalidRes 3))) ∧
    ((op1_src_num w = 0 ∨ op1_src_num w = 1 ∨ op1_src_num w = 2 ∨ op1_src_num w = 4) →
      (op1_src_num w = 1 → imm ≠ none) →
      (pc_update_num w = 0 ∨ pc_update_num w = 1 ∨ pc_update_num w = 2 ∨
        pc_update_num w = 4) →
      (res_logic_num w = 0 ∨ res_logic_num w = 1 ∨ res_logic_num w = 2) →
      opcode_num w = 3 →
      decode_instruction w imm = some (.error (.InvalidOpcode 3))) ∧
    ((op1_src_num w = 0 ∨ op1_src_num w = 1 ∨ op1_src_num w = 2 ∨ op1_src_num w = 4) →
      (op1_src_num w = 1 → imm ≠ none) →
      (pc_update_num w = 0 ∨ pc_update_num w = 1 ∨ pc_update_num w = 2 ∨
        pc_update_num w = 4) →
      (res_logic_num w = 0 ∨ res_logic_num w = 1 ∨ res_logic_num w = 2) →
      (opcode_num w = 0 ∨ opcode_num w = 1 ∨ opcode_num w = 2 ∨ opcode_num w = 4) →
      ap_update_num w = 3 →
      decode_instruction w imm = some (.error (.InvalidApUpdate 3))) := by
  refine ⟨?_, ?_, ?_, ?_, ?_⟩
  · intro h1
    simp [decode_instruction, decodeOp1Addr, h1]
  · intro hv1 himm h2
    obtain h1 | h1 | h1 | h1 := hv1 <;>
      first
        | (simp [decode_instruction, decodeOp1Addr, decodePcUpdate, h1, h2]; done)
        | (simp [decode_instruction, decodeOp1Addr, decodePcUpdate, h1, h2, himm h1]; done)
  · intro hv1 himm hv2 h3
    obtain h1 | h1 | h1 | h1 := hv1 <;> obtain h2 | h2 | h2 | h2 := hv2 <;>
      first
        | (simp [decode_instruction, decodeOp1Addr, decodePcUpdate, decodeRes,
            h1, h2, h3]; done)
        | (simp [decode_instruction, decodeOp1Addr, decodePcUpdate, decodeRes,
            h1, h2, h3, himm h1]; done)
  · intro hv1 himm hv2 hv3 h4
    obtain h1 | h1 | h1 | h1 := hv1 <;> obtain h2 | h2 | h2 | h2 := hv2 <;>
      obtain h3 | h3 | h3 := hv3 <;>
      first
        | (simp [decode_instruction, decodeOp1Addr, decodePcUpdate, decodeRes,
            decodeOpcode, h1, h2, h3, h4]; done)
        | (simp [decode_instruction, decodeOp1Addr, decodePcUpdate, decodeRes,
            decodeOpcode, h1, h2, h3, h4, himm h1]; done)
  · intro hv1 himm hv2 hv3 hv4 h5
    obtain h1 | h1 | h1 | h1 := hv1 <;> obtain h2 | h2 | h2 | h2 := hv2 <;>
      obtain h3 | h3 | h3 := hv3 <;> obtain h4 | h4 | h4 | h4 := hv4 <;>
      first
        | (simp [decode_instruction, decodeOp1Addr, decodePcUpdate, decodeRes,
            decodeOpcode, decodeApUpdate, h1, h2, h3, h4, h5]; done)
        | (simp [decode_instruction, decodeOp1Addr, decodePcUpdate, decodeRes,
            decodeOpcode, decodeApUpdate, h1, h2, h3, h4, h5, himm h1]; done)

/-- C3 witness: the five invalid-flag test vectors of the source, obtained
through the theorem at the concrete words. -/
theorem decode_invalid_flag_errors_witness :
    decode_instruction 0x294F800080008000 none = some (.error (.InvalidOp1Reg 3)) ∧
    decode_instruction 0x29A8800080008000 none = some (.error (.InvalidPcUpdate 3)) ∧
    decode_instruction 0x2968800080008000 none = some (.error (.InvalidRes 3)) ∧
    decode_instruction 0x3948800080008000 none = some (.error (.InvalidOpcode 3)) ∧
    decode_instruction 0x2D48800080008000 none = some (.error (.InvalidApUpdate 3)) := by
  refine ⟨?_, ?_, ?_, ?_, ?_⟩
  · exact (decode_invalid_flag_errors 0x294F800080008000 none (by decide)).1 (by decide)
  · exact (decode_invalid_flag_errors 0x29A8800080008000 none (by decide)).2.1
      (by decide) (by decide) (by decide)
  · exact (decode_invalid_flag_errors 0x2968800080008000 none (by decide)).2.2.1
      (by decide) (by decide) (by decide) (by decide)
  · exact (decode_invalid_flag_errors 0x3948800080008000 none (by decide)).2.2.2.1
      (by decide) (by decide) (by decide) (by decide) (by decide)
  · exact (decode_invalid_flag_errors 0x2D48800080008000 none (by decide)).2.2.2.2
      (by decide) (by decide) (by decide) (by decide) (by decide) (by decide)

lemma decodeRes_ok {n : Int} {pc : PcUpdate} {r : Res} (h : decodeRes n pc = .ok r) :
    (r = .Unconstrained ↔ pc = .Jnz ∧ n = 0) ∧ (n = 0 → pc ≠ .Jnz → r = .Op1) := by
  unfold decodeRes at h
  split_ifs at h with h0 h1 h2 h3 <;>
    first
      | (injection h with h; subst h; simp_all)
      | (exact absurd h (by simp))

lemma decodeApUpdate_ok {n : Int} {op : Opcode} {a : ApUpdate}
    (h : decodeApUpdate n op = .ok a) :
    (op = .Call → n = 0 → a = .Add2) ∧ (op ≠ .Call → n = 0 → a = .Regular) := by
  unfold decodeApUpdate at h
  split_ifs at h with h0 h1 h2 h3 <;>
    first
      | (injection h with h; subst h; simp_all)
      | (exact absurd h (by simp))

/-- C4: on every word the decoder accepts, the cross-field rules hold:
`res` is `Unconstrained` exactly when `pc_update` is `Jnz` with a zero
`res_logic` field (a zero field otherwise giving `Op1`); a zero `ap_update`
field decodes to `Add2` under opcode `Call` and to `Regular` under any other
opcode; and `fp_update` is `APPlus2` for `Call`, `Dst` for `Ret` and
`Regular` otherwise. -/
theorem decode_cross_field_rules (w : Int) (imm : Option Int) (i : Instruction)
    (h : decode_instruction w imm = some (.ok i)) :
    (i.res = .Unconstrained ↔ (i.pc_update = .Jnz ∧ res_logic_num w = 0)) ∧
    (res_logic_num w = 0 → i.pc_update ≠ .Jnz → i.res = .Op1) ∧
    (i.opcode = .Call → ap_update_num w = 0 → i.ap_update = .Add2) ∧
    (i.opcode ≠ .Call → ap_update_num w = 0 → i.ap_update = .Regular) ∧
    (i.opcode = .Call → i.fp_update = .APPlus2) ∧
    (i.opcode = .Ret → i.fp_update = .Dst) ∧
    (i.opcode ≠ .Call → i.opcode ≠ .Ret → i.fp_update = .Regular) := by
  simp only [decode_instruction] at h
  split at h
  · simp at h
  next op1_addr hop1 =>
    split at h
    · simp at h
    next hcond =>
      split at h
      · simp at h
      next pcu hpc =>
        split at h
        · simp at h
        next res hres =>
          split at h
          · simp at h
          next opc hopc =>
            split at h
            · simp at h
            next apu hap =>
              injection h with h
              injection h with h
              subst h
              have hr := decodeRes_ok hres
              have ha := decodeApUpdate_ok hap
              refine ⟨hr.1, hr.2, ha.1, ha.2, ?_, ?_, ?_⟩ <;>
                (intro hc
                 first
                   | (subst hc; rfl)
                   | (intro hc2; cases opc <;> simp_all [fpUpdateOf]))

/-- C4 witness: the cross-field rules instantiated on the word
`0x4200800080008000` (`res = UNCONSTRAINED`, `pc = JNZ`, `opcode =
ASSERT_EQ`, `ap = REGULAR`) from the source's own test vector. -/
theorem decode_cross_field_rules_witness :
    ∃ i, decode_instruction 0x4200800080008000 none = some (.ok i) ∧
      (i.res = .Unconstrained ↔ (i.pc_update = .Jnz ∧ res_logic_num 0x4200800080008000 = 0)) ∧
      i.ap_update = .Regular ∧ i.fp_update = .Regular := by
  have hd : decode_instruction 0x4200800080008000 none =
      some (.ok ⟨0, 0, 0, none, .AP, .AP, .Op0, .Unconstrained, .Jnz, .Regular,
        .Regular, .AssertEq⟩) := by decide
  have h := decode_cross_field_rules 0x4200800080008000 none _ hd
  exact ⟨_, hd, h.1, h.2.2.2.1 (by decide) (by decide), h.2.2.2.2.2.2 (by decide) (by decide)⟩

/-- C5: resolving an AP-relative `HintReference` errors with
`NoneApTrackingData` when either tracking record is absent and with
`InvalidTrackingGroup` when their groups differ; with matching groups the
base address is `ap` with its offset decreased by the tracking offset
difference; and for any register, a negative `offset1` larger in magnitude
than the base offset resolves to no address rather than an error. -/
theorem compute_addr_ap_tracking_spec (hint_reference : HintReference)
    (run_context : RunContext) (memory : Memory)
    (hint_ap_tracking : Option ApTracking) :
    (hint_reference.register = .AP →
      (hint_ap_tracking = none ∨ hint_reference.ap_tracking_data = none) →
      compute_addr_from_reference hint_reference run_context memory hint_ap_tracking =
        .error .NoneApTrackingData) ∧
    (∀ hat rat r, hint_reference.register = .AP →
      hint_ap_tracking = some hat →
      hint_reference.ap_tracking_data = some rat →
      run_context.ap = .RelocatableValue r →
      rat.group ≠ hat.group →
      compute_addr_from_reference hint_reference run_context memory hint_ap_tracking =
        .error (.InvalidTrackingGroup rat.group hat.group)) ∧
    (∀ (hat rat : ApTracking) (r : Relocatable), rat.group = hat.group →
      apply_ap_tracking_correction r rat hat =
        .ok (.RelocatableValue ⟨r.segment_index, r.offset - (hat.offset - rat.offset)⟩)) ∧
    (∀ b, hintBaseAddr hint_reference run_context hint_ap_tracking =
        .ok (.RelocatableValue b) →
      hint_reference.offset1 < 0 →
      b.offset < |hint_reference.offset1| →
      compute_addr_from_reference hint_reference run_context memory hint_ap_tracking =
        .ok none) := by
  refine ⟨?_, ?_, ?_, ?_⟩
  · intro hreg habsent
    obtain ⟨reg, o1, o2, inner, apt⟩ := hint_reference
    replace hreg : reg = Register.AP := hreg
    subst hreg
    have hbase : hintBaseAddr ⟨.AP, o1, o2, inner, apt⟩ run_context hint_ap_tracking =
        .error .NoneApTrackingData := by
      obtain h | h := habsent
      · subst h
        cases apt <;> rfl
      · replace h : apt = none := h
        subst h
        cases hint_ap_tracking <;> rfl
    simp only [compute_addr_from_reference, hbase]
  · intro hat rat r hreg hhat hrat hap hgroup
    obtain ⟨reg, o1, o2, inner, apt⟩ := hint_reference
    replace hreg : reg = Register.AP := hreg
    subst hreg
    replace hrat : apt = some rat := hrat
    subst hrat
    subst hhat
    have hbase : hintBaseAddr ⟨.AP, o1, o2, inner, some rat⟩ run_context (some hat) =
        .error (.InvalidTrackingGroup rat.group hat.group) := by
      simp only [hintBaseAddr]
      rw [hap]
      simp only [apply_ap_tracking_correction, if_pos hgroup]
    simp only [compute_addr_from_reference, hbase]
  · intro hat rat r hgroup
    simp only [apply_ap_tracking_correction, hgroup]
    simp
  · intro b hbase hneg habs
    simp only [compute_addr_from_reference, hbase]
    simp only [if_pos (And.intro hneg habs)]

/-- C5 witness: a group mismatch, an absent tracking record, a corrected base
and an unreachable negative-offset reference, all at concrete inputs. -/
theorem compute_addr_ap_tracking_spec_witness :
    (compute_addr_from_reference ⟨.AP, 0, 0, false, some ⟨1, 2⟩⟩
        ⟨.Int 0, .RelocatableValue ⟨1, 10⟩, .Int 0⟩ ⟨[]⟩ (some ⟨2, 5⟩) =
      .error (.InvalidTrackingGroup 1 2)) ∧
    (compute_addr_from_reference ⟨.AP, 0, 0, false, none⟩
        ⟨.Int 0, .RelocatableValue ⟨1, 10⟩, .Int 0⟩ ⟨[]⟩ (some ⟨2, 5⟩) =
      .error .NoneApTrackingData) ∧
    (apply_ap_tracking_correction ⟨1, 10⟩ ⟨1, 2⟩ ⟨1, 5⟩ =
      .ok (.RelocatableValue ⟨1, 7⟩)) ∧
    (compute_addr_from_reference ⟨.FP, -3, 0, false, none⟩
        ⟨.Int 0, .Int 0, .RelocatableValue ⟨0, 2⟩⟩ ⟨[]⟩ none = .ok none) := by
  refine ⟨?_, ?_, ?_, ?_⟩
  · exact (compute_addr_ap_tracking_spec ⟨.AP, 0, 0, false, some ⟨1, 2⟩⟩
      ⟨.Int 0, .RelocatableValue ⟨1, 10⟩, .Int 0⟩ ⟨[]⟩ (some ⟨2, 5⟩)).2.1
      ⟨2, 5⟩ ⟨1, 2⟩ ⟨1, 10⟩ rfl rfl rfl rfl (by decide)
  · exact (compute_addr_ap_tracking_spec ⟨.AP, 0, 0, false, none⟩
      ⟨.Int 0, .RelocatableValue ⟨1, 10⟩, .Int 0⟩ ⟨[]⟩ (some ⟨2, 5⟩)).1
      rfl (Or.inr rfl)
  · have h := (compute_addr_ap_tracking_spec ⟨.AP, 0, 0, false, some ⟨1, 2⟩⟩
      ⟨.Int 0, .RelocatableValue ⟨1, 10⟩, .Int 0⟩ ⟨[]⟩ (some ⟨1, 5⟩)).2.2.1
      ⟨1, 5⟩ ⟨1, 2⟩ ⟨1, 10⟩ rfl
    simpa using h
  · exact (compute_addr_ap_tracking_spec ⟨.FP, -3, 0, false, none⟩
      ⟨.Int 0, .Int 0, .RelocatableValue ⟨0, 2⟩⟩ ⟨[]⟩ none).2.2.2
      ⟨0, 2⟩ rfl (by decide) (by decide)

lemma as_i32_eq_self {x : Int} (h1 : -(2 ^ 31) ≤ x) (h2 : x < 2 ^ 31) :
    as_i32 x = x := by
  have hm : ∀ a b : Int, a.emod b = a % b := fun _ _ => rfl
  have e31 : (2 : Int) ^ 31 = 2147483648 := by norm_num
  have e32 : (2 : Int) ^ 32 = 4294967296 := by norm_num
  rw [e31] at h1 h2
  simp only [as_i32, hm, e31, e32]
  omega

lemma as_usize_eq_self {x : Int} (h1 : 0 ≤ x) (h2 : x < 2 ^ 64) :
    as_usize x = x := by
  have hm : ∀ a b : Int, a.emod b = a % b := fun _ _ => rfl
  have e64 : (2 : Int) ^ 64 = 18446744073709551616 := by norm_num
  rw [e64] at h2
  simp only [as_usize, hm, e64]
  omega

lemma addr_cast_eq {x y : Int} (hx0 : 0 ≤ x) (hx1 : x < 2 ^ 31)
    (hy1 : -(2 ^ 31) ≤ y) (hy2 : y < 2 ^ 31)
    (hs0 : 0 ≤ x + y) (hs1 : x + y < 2 ^ 31) :
    as_usize (as_i32 (as_i32 x + y)) = x + y := by
  rw [as_i32_eq_self (by omega) hx1, as_i32_eq_self (by omega) hs1,
    as_usize_eq_self hs0 (lt_trans hs1 (by norm_num))]

/-- C6, amended: with an inner dereference, the cell at `(base.segment,
base.offset + offset1)` must hold an address `mid`, and — provided the
offsets stay in the range where the source's `i32`/`usize` casts are
value-preserving (`base.offset`, `mid.offset` and both sums in `[0, 2^31)`,
`offset1` and `offset2` in `i32` range) — the resolved address is
`(mid.segment, mid.offset + offset2)`; a missing or integer-valued cell
resolves to no address instead. Outside that range the source wraps (see the
counterexample). -/
theorem compute_addr_inner_dereference_spec (hint_reference : HintReference)
    (run_context : RunContext) (memory : Memory)
    (hint_ap_tracking : Option ApTracking) (b : Relocatable)
    (hbase : hintBaseAddr hint_reference run_context hint_ap_tracking =
      .ok (.RelocatableValue b))
    (hguard : ¬(hint_reference.offset1 < 0 ∧ b.offset < |hint_reference.offset1|))
    (hinner : hint_reference.inner_dereference = true)
    (hb0 : 0 ≤ b.offset) (hb1 : b.offset < 2 ^ 31)
    (ho1l : -(2 ^ 31) ≤ hint_reference.offset1)
    (ho1u : hint_reference.offset1 < 2 ^ 31)
    (hs10 : 0 ≤ b.offset + hint_reference.offset1)
    (hs11 : b.offset + hint_reference.offset1 < 2 ^ 31) :
    (∀ mid : Relocatable, 0 ≤ mid.offset → mid.offset < 2 ^ 31 →
      -(2 ^ 31) ≤ hint_reference.offset2 → hint_reference.offset2 < 2 ^ 31 →
      0 ≤ mid.offset + hint_reference.offset2 →
      mid.offset + hint_reference.offset2 < 2 ^ 31 →
      memory.get (.RelocatableValue
          ⟨b.segment_index, b.offset + hint_reference.offset1⟩) =
        .ok (some (.RelocatableValue mid)) →
      compute_addr_from_reference hint_reference run_context memory hint_ap_tracking =
        .ok (some (.RelocatableValue
          ⟨mid.segment_index, mid.offset + hint_reference.offset2⟩))) ∧
    (memory.get (.RelocatableValue
          ⟨b.segment_index, b.offset + hint_reference.offset1⟩) = .ok none →
      compute_addr_from_reference hint_reference run_context memory hint_ap_tracking =
        .ok none) ∧
    (∀ z, memory.get (.RelocatableValue
          ⟨b.segment_index, b.offset + hint_reference.offset1⟩) =
        .ok (some (.Int z)) →
      compute_addr_from_reference hint_reference run_context memory hint_ap_tracking =
        .ok none) := by
  have haddr : as_usize (as_i32 (as_i32 b.offset + hint_reference.offset1)) =
      b.offset + hint_reference.offset1 := addr_cast_eq hb0 hb1 ho1l ho1u hs10 hs11
  refine ⟨?_, ?_, ?_⟩
  · intro mid hm0 hm1 ho2l ho2u hms0 hms1 hmid
    have hres : as_usize (as_i32 (as_i32 mid.offset + hint_reference.offset2)) =
        mid.offset + hint_reference.offset2 := addr_cast_eq hm0 hm1 ho2l ho2u hms0 hms1
    rw [compute_addr_from_reference, hbase]
    simp only [if_neg hguard, hinner, haddr]
    simp [hmid, hres]
  · intro hmiss
    rw [compute_addr_from_reference, hbase]
    simp only [if_neg hguard, hinner, haddr]
    simp [hmiss]
  · intro z hz
    rw [compute_addr_from_reference, hbase]
    simp only [if_neg hguard, hinner, haddr]
    simp [hz]

/-- C6 counterexample: the unwrapped address formula of the original claim
fails on the program: with `mid = (1, 0)` and `offset2 = -1` the source's
`(mid.offset as i32 + offset2) as usize` wraps the negative sum, resolving to
offset `2^64 - 1` rather than `0 + (-1)`. -/
theorem compute_addr_inner_wrap_counterexample :
    compute_addr_from_reference ⟨.FP, 0, -1, true, none⟩
        ⟨.Int 0, .Int 0, .RelocatableValue ⟨0, 0⟩⟩
        ⟨[[some (.RelocatableValue ⟨1, 0⟩)]]⟩ none =
      .ok (some (.RelocatableValue ⟨1, 2 ^ 64 - 1⟩)) ∧
    (2 ^ 64 - 1 : Int) ≠ (0 : Int) + -1 := by decide

/-- C6 witness: an in-range inner dereference through a stored address, a
missing cell and an integer cell, at concrete inputs. -/
theorem compute_addr_inner_dereference_spec_witness :
    (compute_addr_from_reference ⟨.FP, 2, 3, true, none⟩
        ⟨.Int 0, .Int 0, .RelocatableValue ⟨0, 0⟩⟩
        ⟨[[none, none, some (.RelocatableValue ⟨1, 4⟩)]]⟩ none =
      .ok (some (.RelocatableValue ⟨1, 7⟩))) ∧
    (compute_addr_from_reference ⟨.FP, 2, 3, true, none⟩
        ⟨.Int 0, .Int 0, .RelocatableValue ⟨0, 0⟩⟩
        ⟨[[none, none, none]]⟩ none = .ok none) ∧
    (compute_addr_from_reference ⟨.FP, 2, 3, true, none⟩
        ⟨.Int 0, .Int 0, .RelocatableValue ⟨0, 0⟩⟩
        ⟨[[none, none, some (.Int 9)]]⟩ none = .ok none) := by
  refine ⟨?_, ?_, ?_⟩
  · exact (compute_addr_inner_dereference_spec ⟨.FP, 2, 3, true, none⟩
      ⟨.Int 0, .Int 0, .RelocatableValue ⟨0, 0⟩⟩
      ⟨[[none, none, some (.RelocatableValue ⟨1, 4⟩)]]⟩ none ⟨0, 0⟩
      rfl (by decide) rfl (by decide) (by decide) (by decide) (by decide)
      (by decide) (by decide)).1 ⟨1, 4⟩ (by decide) (by decide) (by decide)
      (by decide) (by decide) (by decide) (by decide)
  · exact (compute_addr_inner_dereference_spec ⟨.FP, 2, 3, true, none⟩
      ⟨.Int 0, .Int 0, .RelocatableValue ⟨0, 0⟩⟩
      ⟨[[none, none, none]]⟩ none ⟨0, 0⟩ rfl (by decide) rfl (by decide)
      (by decide) (by decide) (by decide) (by decide) (by decide)).2.1 (by decide)
  · exact (compute_addr_inner_dereference_spec ⟨.FP, 2, 3, true, none⟩
      ⟨.Int 0, .Int 0, .RelocatableValue ⟨0, 0⟩⟩
      ⟨[[none, none, some (.Int 9)]]⟩ none ⟨0, 0⟩ rfl (by decide) rfl (by decide)
      (by decide) (by decide) (by decide) (by decide) (by decide)).2.2
      9 (by decide)

lemma padSegment_length (seg : MemSegment) (n : Nat) :
    (padSegment seg n).length = max seg.length n := by
  simp [padSegment]
  omega

lemma padSegment_getD (seg : MemSegment) (n i : Nat) :
    (padSegment seg n).getD i none = seg.getD i none := by
  rw [padSegment, List.getD_eq_getElem?_getD, List.getD_eq_getElem?_getD]
  by_cases hi : i < seg.length
  · rw [List.getElem?_append_left hi]
  · rw [List.getElem?_append_right (le_of_not_lt hi), List.getElem?_replicate,
      List.getElem?_eq_none (le_of_not_lt hi)]
    split <;> rfl

lemma Memory.get_ok_none_cell {mem : Memory} {r : Relocatable}
    (hs : 0 ≤ r.segment_index) (ho : 0 ≤ r.offset)
    (h : mem.get (.RelocatableValue r) = .ok none) :
    (mem.data.getD r.segment_index.toNat []).getD r.offset.toNat none = none := by
  simp only [Memory.get, if_pos (And.intro hs ho)] at h
  injection h

lemma Memory.insert_unset_ok {mem : Memory} {r : Relocatable} (v : MaybeRelocatable)
    (hs : 0 ≤ r.segment_index) (ho : 0 ≤ r.offset)
    (hlen : r.segment_index.toNat < mem.data.length)
    (hcell : (mem.data.getD r.segment_index.toNat []).getD r.offset.toNat none = none) :
    mem.insert (.RelocatableValue r) v =
      .ok ⟨mem.data.set r.segment_index.toNat
        ((padSegment (mem.data.getD r.segment_index.toNat []) (r.offset.toNat + 1)).set
          r.offset.toNat (some v))⟩ := by
  simp only [Memory.insert]
  rw [if_pos ⟨hs, ho, hlen⟩, hcell]

lemma Memory.get_set_self {mem : Memory} {r : Relocatable} (v : MaybeRelocatable)
    (hs : 0 ≤ r.segment_index) (ho : 0 ≤ r.offset)
    (hlen : r.segment_index.toNat < mem.data.length) :
    Memory.get ⟨mem.data.set r.segment_index.toNat
        ((padSegment (mem.data.getD r.segment_index.toNat []) (r.offset.toNat + 1)).set
          r.offset.toNat (some v))⟩ (.RelocatableValue r) = .ok (some v) := by
  simp only [Memory.get, if_pos (And.intro hs ho)]
  rw [List.getD_eq_getElem?_getD (mem.data.set _ _), List.getElem?_set_self hlen,
    Option.getD_some, List.getD_eq_getElem?_getD, List.getElem?_set_self]
  · rfl
  · rw [padSegment_length]
    omega

lemma Memory.insert_ok_length {mem mem2 : Memory} {addr v : MaybeRelocatable}
    (h : mem.insert addr v = .ok mem2) : mem2.data.length = mem.data.length := by
  cases addr with
  | Int i => exact absurd h (by simp [Memory.insert])
  | RelocatableValue r =>
    simp only [Memory.insert] at h
    split at h
    · split at h
      · split at h
        · injection h with h
          rw [← h]
        · exact absurd h (by simp)
      · injection h with h
        rw [← h]
        simp
    · exact absurd h (by simp)

lemma Memory.insert_ok_get_of_ne {mem mem2 : Memory} {r : Relocatable}
    {v : MaybeRelocatable} (h : mem.insert (.RelocatableValue r) v = .ok mem2)
    (r' : Relocatable)
    (hne : r.segment_index.toNat ≠ r'.segment_index.toNat ∨
      r.offset.toNat ≠ r'.offset.toNat) :
    mem2.get (.RelocatableValue r') = mem.get (.RelocatableValue r') := by
  simp only [Memory.insert] at h
  split at h
  · split at h
    · split at h
      · injection h with h
        rw [← h]
      · exact absurd h (by simp)
    · injection h with h
      subst h
      simp only [Memory.get]
      split
      · congr 1
        obtain hne | hne := hne
        · rw [List.getD_eq_getElem?_getD (mem.data.set _ _),
            List.getElem?_set_ne hne, ← List.getD_eq_getElem?_getD]
        · by_cases hseg : r.segment_index.toNat = r'.segment_index.toNat
          · rw [← hseg, List.getD_eq_getElem?_getD (mem.data.set _ _),
              List.getElem?_set_self (by omega), Option.getD_some,
              List.getD_eq_getElem?_getD, List.getElem?_set_ne hne,
              ← List.getD_eq_getElem?_getD, padSegment_getD]
          · rw [List.getD_eq_getElem?_getD (mem.data.set _ _),
              List.getElem?_set_ne hseg, ← List.getD_eq_getElem?_getD]
      · rfl
  · exact absurd h (by simp)

lemma fdiv_pow250_pos_iff {a : Int} (ha : 0 ≤ a) :
    0 < Int.fdiv a (2 ^ 250) ↔ 2 ^ 250 ≤ a := by
  rw [Int.fdiv_eq_ediv _ (by positivity)]
  constructor
  · intro h
    by_contra hlt
    push_neg at hlt
    rw [Int.ediv_eq_zero_of_lt ha hlt] at h
    exact lt_irrefl 0 h
  · intro h
    have h1 : (1 : Int) ≤ a / 2 ^ 250 :=
      (Int.le_ediv_iff_mul_le (by positivity)).mpr (by linarith)
    omega

/-- C9: with `ids.value` resolving to an integer in memory, the `sqrt` hint
fails with `ValueOutside250BitRange` exactly when `value mod P` is at least
`2^250`, and otherwise writes the integer square root of `value mod P` at the
`ids.root` address. -/
theorem sqrt_hint_spec (vm : VirtualMachine) (ids : List (String × Int))
    (hint_ap_tracking : Option ApTracking)
    (value_ref root_ref : Int) (value_addr root_addr : MaybeRelocatable)
    (value : Int) (rootCell : Option MaybeRelocatable)
    (hids_v : idsGet ids "value" = some value_ref)
    (hids_r : idsGet ids "root" = some root_ref)
    (haddr_v : get_address_from_reference value_ref vm.references vm.run_context
      vm.memory hint_ap_tracking = .ok (some value_addr))
    (haddr_r : get_address_from_reference root_ref vm.references vm.run_context
      vm.memory hint_ap_tracking = .ok (some root_addr))
    (hval : vm.memory.get value_addr = .ok (some (.Int value)))
    (hroot : vm.memory.get root_addr = .ok rootCell)
    (hprime : 0 < vm.prime) :
    (2 ^ 250 ≤ value.emod vm.prime →
      sqrt vm ids hint_ap_tracking =
        .error (.ValueOutside250BitRange (value.emod vm.prime))) ∧
    (value.emod vm.prime < 2 ^ 250 →
      ∀ s : Relocatable, root_addr = .RelocatableValue s →
        0 ≤ s.segment_index → 0 ≤ s.offset →
        s.segment_index.toNat < vm.memory.data.length →
        rootCell = none →
        ∃ vm2, sqrt vm ids hint_ap_tracking = .ok vm2 ∧
          vm2.memory.get root_addr =
            .ok (some (.Int (Int.ofNat (Nat.sqrt (value.emod vm.prime).toNat))))) := by
  have hmodnn : 0 ≤ value.emod vm.prime := Int.emod_nonneg value (by omega)
  constructor
  · intro hge
    simp only [sqrt, hids_v, hids_r, haddr_v, haddr_r, hval, hroot]
    rw [if_pos ((fdiv_pow250_pos_iff hmodnn).mpr hge)]
  · intro hlt s hseq hs ho hlen hcell
    subst hseq
    have hcell2 : (vm.memory.data.getD s.segment_index.toNat []).getD s.offset.toNat
        none = none := by
      apply Memory.get_ok_none_cell hs ho
      rw [hroot, hcell]
    have hins := @Memory.insert_unset_ok vm.memory s
      (.Int (Int.ofNat (Nat.sqrt (value.emod vm.prime).toNat))) hs ho hlen hcell2
    refine ⟨{ vm with memory := ⟨vm.memory.data.set s.segment_index.toNat
      ((padSegment (vm.memory.data.getD s.segment_index.toNat []) (s.offset.toNat + 1)).set
        s.offset.toNat (some (.Int (Int.ofNat (Nat.sqrt (value.emod vm.prime).toNat)))))⟩ },
      ?_, ?_⟩
    · simp only [sqrt, hids_v, hids_r, haddr_v, haddr_r, hval, hroot]
      rw [if_neg (by rw [fdiv_pow250_pos_iff hmodnn]; omega)]
      simp only [isqrt]
      rw [hins]
    · exact Memory.get_set_self _ hs ho hlen

/-- C9 witness: `sqrt` on `value = 49` over the Cairo prime writes `root = 7`. -/
theorem sqrt_hint_spec_witness :
    ∃ vm2,
      sqrt ⟨⟨.Int 0, .Int 0, .RelocatableValue ⟨0, 0⟩⟩, 2 ^ 251 + 17 * 2 ^ 192 + 1,
          [("range_check", .RangeCheck ⟨2 ^ 128⟩)],
          [⟨.FP, 0, 0, false, none⟩, ⟨.FP, 1, 0, false, none⟩],
          ⟨[[some (.Int 49), none]]⟩, .new⟩
        [("value", 0), ("root", 1)] none = .ok vm2 ∧
      vm2.memory.get (.RelocatableValue ⟨0, 1⟩) = .ok (some (.Int 7)) := by
  have h := sqrt_hint_spec ⟨⟨.Int 0, .Int 0, .RelocatableValue ⟨0, 0⟩⟩,
      2 ^ 251 + 17 * 2 ^ 192 + 1, [("range_check", .RangeCheck ⟨2 ^ 128⟩)],
      [⟨.FP, 0, 0, false, none⟩, ⟨.FP, 1, 0, false, none⟩],
      ⟨[[some (.Int 49), none]]⟩, .new⟩
    [("value", 0), ("root", 1)] none 0 1 (.RelocatableValue ⟨0, 0⟩)
    (.RelocatableValue ⟨0, 1⟩) 49 none rfl rfl (by decide) (by decide)
    (by decide) (by decide) (by positivity)
  obtain ⟨vm2, hok, hread⟩ := h.2 (by decide) ⟨0, 1⟩ rfl (by decide) (by decide)
    (by decide) rfl
  refine ⟨vm2, hok, ?_⟩
  rw [hread]
  norm_num [show Int.toNat 49 = 49 from rfl]

/-- C7: with `ids.a` and `ids.b` resolving to integers and the range-check
builtin present, `assert_le_felt` requires the `small_inputs` cell to be
unset, fails with `NonLeFelt` unless `a mod P <= b mod P`, and on success
writes `small_inputs = 1` exactly when `a < bound` and `a - b < bound` on the
raw stored values (not their reductions mod P), else `0`. -/
theorem assert_le_felt_spec (vm : VirtualMachine) (ids : List (String × Int))
    (hint_ap_tracking : Option ApTracking)
    (a_ref b_ref si_ref : Int) (a_addr b_addr si_addr : MaybeRelocatable)
    (a b : Int) (rc : RangeCheckBuiltinRunner)
    (hids_a : idsGet ids "a" = some a_ref)
    (hids_b : idsGet ids "b" = some b_ref)
    (hids_s : idsGet ids "small_inputs" = some si_ref)
    (haddr_a : get_address_from_reference a_ref vm.references vm.run_context
      vm.memory hint_ap_tracking = .ok (some a_addr))
    (haddr_b : get_address_from_reference b_ref vm.references vm.run_context
      vm.memory hint_ap_tracking = .ok (some b_addr))
    (haddr_s : get_address_from_reference si_ref vm.references vm.run_context
      vm.memory hint_ap_tracking = .ok (some si_addr))
    (hmem_a : vm.memory.get a_addr = .ok (some (.Int a)))
    (hmem_b : vm.memory.get b_addr = .ok (some (.Int b)))
    (hrc : findRangeCheckEntry vm.builtin_runners = some (.RangeCheck rc)) :
    (∀ v, vm.memory.get si_addr = .ok (some v) →
      assert_le_felt vm ids hint_ap_tracking = .error .FailedToGetIds) ∧
    (vm.memory.get si_addr = .ok none →
      b.emod vm.prime < a.emod vm.prime →
      assert_le_felt vm ids hint_ap_tracking = .error (.NonLeFelt a b)) ∧
    (vm.memory.get si_addr = .ok none →
      a.emod vm.prime ≤ b.emod vm.prime →
      ∀ s : Relocatable, si_addr = .RelocatableValue s →
        0 ≤ s.segment_index → 0 ≤ s.offset →
        s.segment_index.toNat < vm.memory.data.length →
        ∃ vm2, assert_le_felt vm ids hint_ap_tracking = .ok vm2 ∧
          vm2.memory.get si_addr =
            .ok (some (.Int (if a < rc._bound ∧ a - b < rc._bound then 1 else 0)))) := by
  refine ⟨?_, ?_, ?_⟩
  · intro v hsi
    simp only [assert_le_felt, hids_a, hids_b, hids_s, haddr_a, haddr_b, haddr_s,
      hmem_a, hmem_b, hsi]
  · intro hsi hgt
    simp only [assert_le_felt, hids_a, hids_b, hids_s, haddr_a, haddr_b, haddr_s,
      hmem_a, hmem_b, hsi, hrc]
    rw [if_pos hgt]
  · intro hsi hle s hseq hs ho hlen
    subst hseq
    have hcell : (vm.memory.data.getD s.segment_index.toNat []).getD s.offset.toNat
        none = none := Memory.get_ok_none_cell hs ho hsi
    have hins := @Memory.insert_unset_ok vm.memory s
      (.Int (if a < rc._bound ∧ a - b < rc._bound then 1 else 0)) hs ho hlen hcell
    refine ⟨{ vm with memory := ⟨vm.memory.data.set s.segment_index.toNat
      ((padSegment (vm.memory.data.getD s.segment_index.toNat []) (s.offset.toNat + 1)).set
        s.offset.toNat (some (.Int (if a < rc._bound ∧ a - b < rc._bound then 1
          else 0))))⟩ }, ?_, ?_⟩
    · simp only [assert_le_felt, hids_a, hids_b, hids_s, haddr_a, haddr_b, haddr_s,
        hmem_a, hmem_b, hsi, hrc]
      rw [if_neg (not_lt.mpr hle), hins]
    · exact Memory.get_set_self _ hs ho hlen

/-- C7 witness: over prime 17 with bound 4, `a = 2`, `b = 3` passes the
`a mod P <= b mod P` check and writes `small_inputs = 1`. -/
theorem assert_le_felt_spec_witness :
    ∃ vm2,
      assert_le_felt ⟨⟨.Int 0, .Int 0, .RelocatableValue ⟨0, 0⟩⟩, 17,
          [("range_check", .RangeCheck ⟨4⟩)],
          [⟨.FP, 0, 0, false, none⟩, ⟨.FP, 1, 0, false, none⟩, ⟨.FP, 2, 0, false, none⟩],
          ⟨[[some (.Int 2), some (.Int 3), none]]⟩, .new⟩
        [("a", 0), ("b", 1), ("small_inputs", 2)] none = .ok vm2 ∧
      vm2.memory.get (.RelocatableValue ⟨0, 2⟩) = .ok (some (.Int 1)) := by
  have h := assert_le_felt_spec ⟨⟨.Int 0, .Int 0, .RelocatableValue ⟨0, 0⟩⟩, 17,
      [("range_check", .RangeCheck ⟨4⟩)],
      [⟨.FP, 0, 0, false, none⟩, ⟨.FP, 1, 0, false, none⟩, ⟨.FP, 2, 0, false, none⟩],
      ⟨[[some (.Int 2), some (.Int 3), none]]⟩, .new⟩
    [("a", 0), ("b", 1), ("small_inputs", 2)] none 0 1 2
    (.RelocatableValue ⟨0, 0⟩) (.RelocatableValue ⟨0, 1⟩) (.RelocatableValue ⟨0, 2⟩)
    2 3 ⟨4⟩ rfl rfl rfl (by decide) (by decide) (by decide) (by decide) (by decide) rfl
  obtain ⟨vm2, hok, hread⟩ := h.2.2 (by decide) (by decide) ⟨0, 2⟩ rfl
    (by decide) (by decide) (by decide)
  refine ⟨vm2, hok, ?_⟩
  rw [hread]
  decide

/-- C8: with `ids.div`, `ids.value` and `ids.bound` resolving to integers,
readable `r`, `biased_q` and `range_check_ptr` cells and the range-check
builtin with bound `b` present, `signed_div_rem` fails with `OutOfValidRange`
unless `0 < div <= P / b`, `bound <= b / 2` and the floor-division quotient
`q` of the signed view of `value` by `div` satisfies `-bound <= q < bound`;
on success it writes the remainder to `ids.r` and `q + bound` to
`ids.biased_q`. -/
theorem signed_div_rem_spec (vm : VirtualMachine) (ids : List (String × Int))
    (hint_ap_tracking : Option ApTracking)
    (r_ref q_ref p_ref div_ref value_ref bound_ref : Int)
    (r_addr q_addr p_addr div_addr value_addr bound_addr : MaybeRelocatable)
    (vr vq vp : Option MaybeRelocatable)
    (div value bound : Int) (rc : RangeCheckBuiltinRunner)
    (hids_r : idsGet ids "r" = some r_ref)
    (hids_q : idsGet ids "biased_q" = some q_ref)
    (hids_p : idsGet ids "range_check_ptr" = some p_ref)
    (hids_d : idsGet ids "div" = some div_ref)
    (hids_v : idsGet ids "value" = some value_ref)
    (hids_b : idsGet ids "bound" = some bound_ref)
    (haddr_r : get_address_from_reference r_ref vm.references vm.run_context
      vm.memory hint_ap_tracking = .ok (some r_addr))
    (haddr_q : get_address_from_reference q_ref vm.references vm.run_context
      vm.memory hint_ap_tracking = .ok (some q_addr))
    (haddr_p : get_address_from_reference p_ref vm.references vm.run_context
      vm.memory hint_ap_tracking = .ok (some p_addr))
    (haddr_d : get_address_from_reference div_ref vm.references vm.run_context
      vm.memory hint_ap_tracking = .ok (some div_addr))
    (haddr_v : get_address_from_reference value_ref vm.references vm.run_context
      vm.memory hint_ap_tracking = .ok (some value_addr))
    (haddr_b : get_address_from_reference bound_ref vm.references vm.run_context
      vm.memory hint_ap_tracking = .ok (some bound_addr))
    (hmem_r : vm.memory.get r_addr = .ok vr)
    (hmem_q : vm.memory.get q_addr = .ok vq)
    (hmem_p : vm.memory.get p_addr = .ok vp)
    (hmem_d : vm.memory.get div_addr = .ok (some (.Int div)))
    (hmem_v : vm.memory.get value_addr = .ok (some (.Int value)))
    (hmem_b : vm.memory.get bound_addr = .ok (some (.Int bound)))
    (hrc : findRangeCheckEntry vm.builtin_runners = some (.RangeCheck rc)) :
    ((¬ 0 < div ∨ div > Int.tdiv vm.prime rc._bound) →
      signed_div_rem vm ids hint_ap_tracking =
        .error (.OutOfValidRange div (Int.tdiv vm.prime rc._bound))) ∧
    (0 < div → div ≤ Int.tdiv vm.prime rc._bound →
      bound > Int.fdiv rc._bound 2 →
      signed_div_rem vm ids hint_ap_tracking =
        .error (.OutOfValidRange bound (Int.fdiv rc._bound 2))) ∧
    (0 < div → div ≤ Int.tdiv vm.prime rc._bound →
      bound ≤ Int.fdiv rc._bound 2 →
      (-bound > Int.fdiv (as_int value vm.prime) div ∨
        Int.fdiv (as_int value vm.prime) div ≥ bound) →
      signed_div_rem vm ids hint_ap_tracking =
        .error (.OutOfValidRange (Int.fdiv (as_int value vm.prime) div) bound)) ∧
    (0 < div → div ≤ Int.tdiv vm.prime rc._bound →
      bound ≤ Int.fdiv rc._bound 2 →
      -bound ≤ Int.fdiv (as_int value vm.prime) div →
      Int.fdiv (as_int value vm.prime) div < bound →
      ∀ rs qs : Relocatable,
        r_addr = .RelocatableValue rs → q_addr = .RelocatableValue qs →
        0 ≤ rs.segment_index → 0 ≤ rs.offset →
        rs.segment_index.toNat < vm.memory.data.length →
        0 ≤ qs.segment_index → 0 ≤ qs.offset →
        qs.segment_index.toNat < vm.memory.data.length →
        vr = none → vq = none →
        (rs.segment_index ≠ qs.segment_index ∨ rs.offset ≠ qs.offset) →
        ∃ vm2, signed_div_rem vm ids hint_ap_tracking = .ok vm2 ∧
          vm2.memory.get r_addr =
            .ok (some (.Int (Int.emod (as_int value vm.prime) div))) ∧
          vm2.memory.get q_addr =
            .ok (some (.Int (Int.fdiv (as_int value vm.prime) div + bound)))) := by
  refine ⟨?_, ?_, ?_, ?_⟩
  · intro hbad
    simp only [signed_div_rem, hids_r, hids_q, hids_p, hids_d, hids_v, hids_b,
      haddr_r, haddr_q, haddr_p, haddr_d, haddr_v, haddr_b,
      hmem_r, hmem_q, hmem_p, hmem_d, hmem_v, hmem_b, hrc]
    rw [if_pos hbad]
  · intro h1 h2 h3
    simp only [signed_div_rem, hids_r, hids_q, hids_p, hids_d, hids_v, hids_b,
      haddr_r, haddr_q, haddr_p, haddr_d, haddr_v, haddr_b,
      hmem_r, hmem_q, hmem_p, hmem_d, hmem_v, hmem_b, hrc]
    rw [if_neg (by push_neg; exact ⟨h1, h2⟩), if_pos h3]
  · intro h1 h2 h3 h4
    simp only [signed_div_rem, hids_r, hids_q, hids_p, hids_d, hids_v, hids_b,
      haddr_r, haddr_q, haddr_p, haddr_d, haddr_v, haddr_b,
      hmem_r, hmem_q, hmem_p, hmem_d, hmem_v, hmem_b, hrc]
    rw [if_neg (by push_neg; exact ⟨h1, h2⟩), if_neg (not_lt.mpr h3), if_pos h4]
  · intro h1 h2 h3 h4 h5 rs qs hreq hqeq hrs hro hrlen hqs hqo hqlen hvr hvq hne
    subst hreq
    subst hqeq
    subst hvr
    subst hvq
    have hcellr : (vm.memory.data.getD rs.segment_index.toNat []).getD rs.offset.toNat
        none = none := Memory.get_ok_none_cell hrs hro hmem_r
    have hins1 := @Memory.insert_unset_ok vm.memory rs
      (.Int (Int.emod (as_int value vm.prime) div)) hrs hro hrlen hcellr
    set mem1 : Memory := ⟨vm.memory.data.set rs.segment_index.toNat
      ((padSegment (vm.memory.data.getD rs.segment_index.toNat []) (rs.offset.toNat + 1)).set
        rs.offset.toNat (some (.Int (Int.emod (as_int value vm.prime) div))))⟩ with hmem1
    have hne2 : rs.segment_index.toNat ≠ qs.segment_index.toNat ∨
        rs.offset.toNat ≠ qs.offset.toNat := by
      obtain hne | hne := hne
      · left
        omega
      · right
        omega
    have hget_q_mem1 : mem1.get (.RelocatableValue qs) =
        vm.memory.get (.RelocatableValue qs) :=
      Memory.insert_ok_get_of_ne hins1 qs hne2
    have hlen1 : mem1.data.length = vm.memory.data.length := by
      rw [hmem1]
      simp
    have hcellq : (mem1.data.getD qs.segment_index.toNat []).getD qs.offset.toNat
        none = none := by
      apply Memory.get_ok_none_cell hqs hqo
      rw [hget_q_mem1, hmem_q]
    have hins2 := @Memory.insert_unset_ok mem1 qs
      (.Int (Int.fdiv (as_int value vm.prime) div + bound)) hqs hqo (by omega) hcellq
    set mem2 : Memory := ⟨mem1.data.set qs.segment_index.toNat
      ((padSegment (mem1.data.getD qs.segment_index.toNat []) (qs.offset.toNat + 1)).set
        qs.offset.toNat (some (.Int (Int.fdiv (as_int value vm.prime) div + bound))))⟩
      with hmem2
    refine ⟨{ vm with memory := mem2 }, ?_, ?_, ?_⟩
    · simp only [signed_div_rem, hids_r, hids_q, hids_p, hids_d, hids_v, hids_b,
        haddr_r, haddr_q, haddr_p, haddr_d, haddr_v, haddr_b,
        hmem_r, hmem_q, hmem_p, hmem_d, hmem_v, hmem_b, hrc]
      rw [if_neg (by push_neg; exact ⟨h1, h2⟩), if_neg (not_lt.mpr h3),
        if_neg (by push_neg; exact ⟨h4, h5⟩)]
      simp only [hins1, hins2]
    · have hswap : mem2.get (.RelocatableValue rs) = mem1.get (.RelocatableValue rs) :=
        Memory.insert_ok_get_of_ne hins2 rs (by omega)
      rw [hswap, hmem1]
      exact Memory.get_set_self _ hrs hro hrlen
    · rw [hmem2]
      exact Memory.get_set_self _ hqs hqo (by omega)

/-- C8 witness: over the Cairo prime with builtin bound `2^128`, dividing the
field encoding of `-7` by `3` with `bound = 2^64` writes `r = 2` and
`biased_q = 2^64 - 3`. -/
theorem signed_div_rem_spec_witness :
    ∃ vm2,
      signed_div_rem ⟨⟨.Int 0, .Int 0, .RelocatableValue ⟨0, 0⟩⟩,
          2 ^ 251 + 17 * 2 ^ 192 + 1, [("range_check", .RangeCheck ⟨2 ^ 128⟩)],
          [⟨.FP, 0, 0, false, none⟩, ⟨.FP, 1, 0, false, none⟩, ⟨.FP, 2, 0, false, none⟩,
           ⟨.FP, 3, 0, false, none⟩, ⟨.FP, 4, 0, false, none⟩, ⟨.FP, 5, 0, false, none⟩],
          ⟨[[none, none, none, some (.Int 3),
             some (.Int (2 ^ 251 + 17 * 2 ^ 192 + 1 - 7)), some (.Int (2 ^ 64))]]⟩, .new⟩
        [("r", 0), ("biased_q", 1), ("range_check_ptr", 2), ("div", 3), ("value", 4),
          ("bound", 5)] none = .ok vm2 ∧
      vm2.memory.get (.RelocatableValue ⟨0, 0⟩) = .ok (some (.Int 2)) ∧
      vm2.memory.get (.RelocatableValue ⟨0, 1⟩) = .ok (some (.Int (2 ^ 64 - 3))) := by
  have h := signed_div_rem_spec ⟨⟨.Int 0, .Int 0, .RelocatableValue ⟨0, 0⟩⟩,
      2 ^ 251 + 17 * 2 ^ 192 + 1, [("range_check", .RangeCheck ⟨2 ^ 128⟩)],
      [⟨.FP, 0, 0, false, none⟩, ⟨.FP, 1, 0, false, none⟩, ⟨.FP, 2, 0, false, none⟩,
       ⟨.FP, 3, 0, false, none⟩, ⟨.FP, 4, 0, false, none⟩, ⟨.FP, 5, 0, false, none⟩],
      ⟨[[none, none, none, some (.Int 3),
         some (.Int (2 ^ 251 + 17 * 2 ^ 192 + 1 - 7)), some (.Int (2 ^ 64))]]⟩, .new⟩
    [("r", 0), ("biased_q", 1), ("range_check_ptr", 2), ("div", 3), ("value", 4),
      ("bound", 5)] none 0 1 2 3 4 5
    (.RelocatableValue ⟨0, 0⟩) (.RelocatableValue ⟨0, 1⟩) (.RelocatableValue ⟨0, 2⟩)
    (.RelocatableValue ⟨0, 3⟩) (.RelocatableValue ⟨0, 4⟩) (.RelocatableValue ⟨0, 5⟩)
    none none none 3 (2 ^ 251 + 17 * 2 ^ 192 + 1 - 7) (2 ^ 64) ⟨2 ^ 128⟩
    rfl rfl rfl rfl rfl rfl
    (by decide) (by decide) (by decide) (by decide) (by decide) (by decide)
    (by decide) (by decide) (by decide) (by decide) (by decide) (by decide) rfl
  obtain ⟨vm2, hok, hr, hq⟩ := h.2.2.2 (by decide) (by decide) (by decide)
    (by decide) (by decide) ⟨0, 0⟩ ⟨0, 1⟩ rfl rfl (by decide) (by decide) (by decide)
    (by decide) (by decide) (by decide) rfl rfl (Or.inr (by decide))
  refine ⟨vm2, hok, ?_, ?_⟩
  · rw [hr]
    decide
  · rw [hq]
    decide
